import Mathlib

/-!
Shallow embedding of the derived-analytics engine in
`frontend/app/dashboard/page.tsx` of the mecon repository: the Schedule
Aggregator (`computeScheduleKpis`), the Risk Bucket Projector
(`dynamicKpis`), the Timeline Builder (`buildGanttTasks`), the Deferral
Explainer (`deferredJobsList`), the Scenario Runner (`runWhatIfAnalysis`)
and the fleet-KPI counting step of `runPipeline` (`computeFleetKpis`).

Modelling conventions: JavaScript numbers are embedded as exact rationals
(the source states its arithmetic as exact real arithmetic); `Math.round`
and `Number(x.toFixed(1))` round to the nearest integer / first decimal
with ties toward positive infinity, which is floor-based rounding; a
possibly-absent object field is an `Option`; a `forEach` loop that only
increments counters is written as a sum over the mapped list; a thrown and
caught exception is an `Except.error` / `Option.none`.  `end` is a
reserved word in Lean, so the `end` field of a job is embedded as `end_`.
-/

/-- JavaScript `Math.round x`: the nearest integer to `x`, ties toward
positive infinity, i.e. `⌊x + 1/2⌋`. -/
def jsRound (x : ℚ) : ℤ := ⌊x + 1/2⌋

/-- JavaScript `Number(x.toFixed(1))`: `x` rounded to one decimal place,
ties toward positive infinity (ECMA `toFixed` picks the larger candidate
on a tie). -/
def toFixed1 (x : ℚ) : ℚ := (⌊10 * x + 1/2⌋ : ℚ) / 10

/-- One scheduled job, as consumed by `computeScheduleKpis` and
`buildGanttTasks` (`job.start`, `job.end`, `job.deadline_hours`,
`job.revenue`); `revenue` may be absent (`job.revenue || 0`). -/
structure ScheduleJob where
  job_id : String
  start : ℚ
  end_ : ℚ
  deadline_hours : ℚ
  revenue : Option ℚ
  deriving DecidableEq

/-- The per-machine value stored in `machine_schedules`; the engine only
reads its `schedule` array. -/
structure MachineSchedule where
  schedule : List ScheduleJob
  deriving DecidableEq

/-- A backend schedule response.  `machine_schedules` is an object whose
entries are iterated in order (`Object.values` / `Object.entries`), so it
is embedded as an association list; either field may be absent from a
malformed response. -/
structure Schedule where
  machine_schedules : Option (List (String × MachineSchedule))
  unassigned_jobs : Option (List String)
  deriving DecidableEq

/-- The KPI record produced by `computeScheduleKpis` (the argument of
`setScheduleKpis`). -/
structure ScheduleKPIs where
  totalScheduled : ℕ
  unassigned : ℕ
  onTime : ℕ
  late : ℕ
  totalRevenue : ℚ
  avgUtilization : ℚ
  deriving DecidableEq

/-- The slider weight vector `{ w_throughput, w_risk, w_cost }`. -/
structure Weights where
  w_throughput : ℚ
  w_risk : ℚ
  w_cost : ℚ
  deriving DecidableEq

/-- Fleet risk-bucket counts `{ total, healthy, warning, highRisk }`; both
the baseline (`kpis` state) and the projected output of `dynamicKpis` have
this shape. -/
structure FleetKPIs where
  total : ℤ
  healthy : ℤ
  warning : ℤ
  highRisk : ℤ
  deriving DecidableEq

/-- Schedule Aggregator: `computeScheduleKpis` (page.tsx lines 104-132).
The early `return` on a schedule without `machine_schedules` is `none`
(no KPI record is produced); otherwise each `forEach` counter increment
becomes a sum over the machine list.  `machineCount` is incremented once
per entry of `machine_schedules`, and `avgUtilization` is
`totalBusyHours / machineCount` when `machineCount > 0`, else `0`, passed
through `toFixed(1)`. -/
def computeScheduleKpis (schedule : Schedule) : Option ScheduleKPIs :=
  match schedule.machine_schedules with
  | none => none
  | some ms =>
    let totalScheduled := (ms.map fun m => m.2.schedule.length).sum
    let onTime := (ms.map fun m =>
      m.2.schedule.countP fun j => decide (j.end_ ≤ j.deadline_hours)).sum
    let late := (ms.map fun m =>
      m.2.schedule.countP fun j => decide (¬ j.end_ ≤ j.deadline_hours)).sum
    let totalRevenue := (ms.map fun m =>
      (m.2.schedule.map fun j => j.revenue.getD 0).sum).sum
    let totalBusyHours := (ms.map fun m =>
      (m.2.schedule.map fun j => j.end_ - j.start).sum).sum
    let machineCount := ms.length
    let avgUtilization :=
      if 0 < machineCount then totalBusyHours / (machineCount : ℚ) else 0
    some
      { totalScheduled := totalScheduled
        unassigned := (schedule.unassigned_jobs.getD []).length
        onTime := onTime
        late := late
        totalRevenue := totalRevenue
        avgUtilization := toFixed1 avgUtilization }

/-- Risk Bucket Projector: `dynamicKpis` (page.tsx lines 134-153).  When
`total == 0` the baseline is returned unchanged; otherwise the three
impact terms are applied, `newHealthy` is clamped to `[0, total]`,
`newHighRisk` to `[0, total - newHealthy]`, `newWarning` is the exact
complement, and all three are rounded with `Math.round`. -/
def dynamicKpis (kpis : FleetKPIs) (weights : Weights) : FleetKPIs :=
  if kpis.total = 0 then kpis else
  let total : ℚ := (kpis.total : ℚ)
  let throughputImpact := (weights.w_throughput - 0.4) * (total * 0.35)
  let riskImpact := (weights.w_risk - 0.3) * (total * 0.45)
  let costImpact := (weights.w_cost - 0.3) * (total * 0.30)
  let newHealthy0 := (kpis.healthy : ℚ) + riskImpact - throughputImpact - costImpact
  let newHighRisk0 := (kpis.highRisk : ℚ) - riskImpact + throughputImpact + costImpact * 0.3
  let newHealthy := max 0 (min total newHealthy0)
  let newHighRisk := max 0 (min (total - newHealthy) newHighRisk0)
  let newWarning := total - newHealthy - newHighRisk
  { total := kpis.total
    healthy := jsRound newHealthy
    warning := jsRound newWarning
    highRisk := jsRound newHighRisk }

/-- One timeline entry pushed by `buildGanttTasks`.  The source also sets
presentation constants (`type`, `progress`, `isDisabled`, `styles`) and a
`name` taken from `job.Job_ID` (a field the schedule jobs do not carry
under that spelling); none of those are analytics data, so only `id`,
`start` and `end` are embedded. -/
structure TimelineTask where
  id : String
  start : ℚ
  end_ : ℚ
  deriving DecidableEq

/-- Timeline Builder: `buildGanttTasks` (page.tsx lines 158-179).  A
schedule without `machine_schedules` yields `[]`; otherwise one task per
(machine, job) pair, machine-major, in job order, with
`id = machineId ++ "_" ++ idx` and `start`/`end` equal to `now` plus the
job's hour offsets converted at `3600 * 1000` milliseconds per hour.
`now` is the reference timestamp in milliseconds, captured once. -/
def buildGanttTasks (scheduleData : Schedule) (now : ℚ) : List TimelineTask :=
  match scheduleData.machine_schedules with
  | none => []
  | some ms =>
    ms.flatMap fun p =>
      p.2.schedule.enum.map fun q =>
        { id := p.1 ++ "_" ++ toString q.1
          start := now + q.2.start * 3600 * 1000
          end_ := now + q.2.end_ * 3600 * 1000 }

/-- The fixed 3-entry justification catalog of the Deferral Explainer
(page.tsx lines 188-192). -/
def reasons : List String :=
  ["Capacity Constraint: Required machine type fully utilized within deadline.",
   "Maintenance Conflict: Required machine locked for mandatory single-cycle maintenance.",
   "Cost Constraint: Processing cost exceeds allowable threshold for optimization weights."]

/-- One row of the deferred-jobs log: an unassigned job id with its
rotating justification. -/
structure DeferredJobEntry where
  id : String
  reason : String
  deriving DecidableEq

/-- Deferral Explainer: `deferredJobsList` (page.tsx lines 185-195).  A
schedule without `unassigned_jobs` yields `[]`; otherwise the id at index
`idx` is paired with `reasons[idx % reasons.length]`. -/
def deferredJobsList (scheduleData : Schedule) : List DeferredJobEntry :=
  match scheduleData.unassigned_jobs with
  | none => []
  | some jobs =>
    jobs.enum.map fun q =>
      { id := q.2, reason := reasons.getD (q.1 % reasons.length) "" }

/-- One row of the what-if comparison table. -/
structure ScenarioResult where
  scenario : String
  scheduled : ℕ
  unassigned : ℕ
  deriving DecidableEq

/-- The body of one iteration of the scenario loop in `runWhatIfAnalysis`
(page.tsx lines 212-219): `unassigned` uses optional chaining, but
`Object.values(schedule.machine_schedules)` does not, so a response
without `machine_schedules` throws (here: `none`). -/
def scenarioResultOf (name : String) (schedule : Schedule) : Option ScenarioResult :=
  match schedule.machine_schedules with
  | none => none
  | some ms =>
    some
      { scenario := name
        scheduled := (ms.map fun m => m.2.schedule.length).sum
        unassigned := (schedule.unassigned_jobs.getD []).length }

/-- The sequential `for ... await` loop of `runWhatIfAnalysis`
(page.tsx lines 208-220), with the optimizer collaborator as an explicit
oracle `opt`: each preset is evaluated in order, and the first failure
(a rejected call or a schedule without `machine_schedules`) propagates,
discarding the results accumulated so far. -/
def runScenarioLoop (opt : Weights → Except String Schedule) :
    List (String × Weights) → Except String (List ScenarioResult)
  | [] => .ok []
  | s :: rest =>
    match opt s.2 with
    | .error e => .error e
    | .ok schedule =>
      match scenarioResultOf s.1 schedule with
      | none => .error "TypeError: schedule.machine_schedules is undefined"
      | some r => (runScenarioLoop opt rest).map fun results => r :: results

/-- Scenario Runner: `runWhatIfAnalysis` (page.tsx lines 200-225),
generalized over the preset list it iterates.  `setScenarioData results`
is reached only when every call succeeded; the surrounding
`try ... catch` logs a failure and leaves the scenario state untouched,
so a failed run produces `none` (no output), not the partial list. -/
def runWhatIfAnalysis (opt : Weights → Except String Schedule)
    (scenarios : List (String × Weights)) : Option (List ScenarioResult) :=
  (runScenarioLoop opt scenarios).toOption

/-- The concrete preset list hard-coded in `runWhatIfAnalysis`
(page.tsx lines 202-206): the current slider weights plus two fixed
presets. -/
def whatIfScenarios (weights : Weights) : List (String × Weights) :=
  [("Balanced", weights),
   ("Throughput Focus", ⟨0.7, 0.2, 0.1⟩),
   ("Risk Focus", ⟨0.2, 0.6, 0.2⟩)]

/-- One machine record of the high-risk snapshot, as consumed by
`runPipeline` and the risk table. -/
structure MachineRiskRecord where
  machine_id : String
  health_score : ℚ
  risk_level : String
  deriving DecidableEq

/-- The fleet-KPI counting step of `runPipeline` (page.tsx lines 237-242):
`total` is the record count and each bucket counts the records whose
`risk_level` is exactly the corresponding string. -/
def computeFleetKpis (data : List MachineRiskRecord) : FleetKPIs :=
  { total := (data.length : ℤ)
    healthy := ((data.countP fun m => m.risk_level == "Healthy") : ℤ)
    warning := ((data.countP fun m => m.risk_level == "Warning") : ℤ)
    highRisk := ((data.countP fun m => m.risk_level == "High Risk") : ℤ) }

/-- The end-to-end example schedule of the specification: machine `M1`
with jobs `J1` and `J2`, and `J3` unassigned. -/
def exampleSchedule : Schedule :=
  { machine_schedules :=
      some [("M1", ⟨[⟨"J1", 0, 4, 5, some 100⟩, ⟨"J2", 4, 10, 8, some 50⟩]⟩)]
    unassigned_jobs := some ["J3"] }

/-! Helper lemmas about the rounding functions. -/

lemma jsRound_nonneg {x : ℚ} (hx : 0 ≤ x) : 0 ≤ jsRound x :=
  Int.le_floor.2 (by push_cast; linarith)

lemma jsRound_le {x : ℚ} {n : ℤ} (hx : x ≤ (n : ℚ)) : jsRound x ≤ n := by
  have hlt : jsRound x < n + 1 := Int.floor_lt.2 (by push_cast; linarith)
  omega

lemma jsRound_le_add_half (x : ℚ) : (jsRound x : ℚ) ≤ x + 1/2 :=
  Int.floor_le _

lemma sub_half_lt_jsRound (x : ℚ) : x - 1/2 < (jsRound x : ℚ) := by
  have hlt := Int.lt_floor_add_one (x + 1/2)
  have : (jsRound x : ℚ) = (⌊x + 1/2⌋ : ℚ) := rfl
  linarith

/-- Unclamped projected healthy count inside `dynamicKpis`
(`healthy + riskImpact - throughputImpact - costImpact`). -/
def newHealthyRaw (kpis : FleetKPIs) (weights : Weights) : ℚ :=
  (kpis.healthy : ℚ) + (weights.w_risk - 0.3) * ((kpis.total : ℚ) * 0.45)
    - (weights.w_throughput - 0.4) * ((kpis.total : ℚ) * 0.35)
    - (weights.w_cost - 0.3) * ((kpis.total : ℚ) * 0.30)

/-- Unclamped projected high-risk count inside `dynamicKpis`
(`highRisk - riskImpact + throughputImpact + costImpact * 0.3`). -/
def newHighRiskRaw (kpis : FleetKPIs) (weights : Weights) : ℚ :=
  (kpis.highRisk : ℚ) - (weights.w_risk - 0.3) * ((kpis.total : ℚ) * 0.45)
    + (weights.w_throughput - 0.4) * ((kpis.total : ℚ) * 0.35)
    + (weights.w_cost - 0.3) * ((kpis.total : ℚ) * 0.30) * 0.3

/-- The clamped healthy value of `dynamicKpis` before rounding. -/
def clampedHealthy (kpis : FleetKPIs) (weights : Weights) : ℚ :=
  max 0 (min (kpis.total : ℚ) (newHealthyRaw kpis weights))

/-- The clamped high-risk value of `dynamicKpis` before rounding. -/
def clampedHighRisk (kpis : FleetKPIs) (weights : Weights) : ℚ :=
  max 0 (min ((kpis.total : ℚ) - clampedHealthy kpis weights) (newHighRiskRaw kpis weights))

lemma dynamicKpis_eq (kpis : FleetKPIs) (weights : Weights) (hne : ¬ kpis.total = 0) :
    dynamicKpis kpis weights =
      { total := kpis.total
        healthy := jsRound (clampedHealthy kpis weights)
        warning := jsRound ((kpis.total : ℚ) - clampedHealthy kpis weights
          - clampedHighRisk kpis weights)
        highRisk := jsRound (clampedHighRisk kpis weights) } := by
  unfold dynamicKpis clampedHighRisk clampedHealthy newHealthyRaw newHighRiskRaw
  rw [if_neg hne]

lemma jsRound_triple (n : ℤ) (a b c : ℚ) (ha0 : 0 ≤ a) (hat : a ≤ (n : ℚ))
    (hb0 : 0 ≤ b) (hbt : b ≤ (n : ℚ) - a) (hc : c = (n : ℚ) - a - b) :
    (0 ≤ jsRound a ∧ jsRound a ≤ n) ∧ (0 ≤ jsRound b ∧ jsRound b ≤ n) ∧
      (0 ≤ jsRound c ∧ jsRound c ≤ n) ∧
      n - 1 ≤ jsRound a + jsRound b + jsRound c ∧
      jsRound a + jsRound b + jsRound c ≤ n + 1 := by
  subst hc
  have hc0 : (0 : ℚ) ≤ (n : ℚ) - a - b := by linarith
  have hcn : (n : ℚ) - a - b ≤ (n : ℚ) := by linarith
  have hA := jsRound_le_add_half a
  have hB := jsRound_le_add_half b
  have hC := jsRound_le_add_half ((n : ℚ) - a - b)
  have hA' := sub_half_lt_jsRound a
  have hB' := sub_half_lt_jsRound b
  have hC' := sub_half_lt_jsRound ((n : ℚ) - a - b)
  have hup : jsRound a + jsRound b + jsRound ((n : ℚ) - a - b) < n + 2 := by
    have : ((jsRound a + jsRound b + jsRound ((n : ℚ) - a - b) : ℤ) : ℚ) <
        ((n + 2 : ℤ) : ℚ) := by push_cast; linarith
    exact_mod_cast this
  have hdown : n - 2 < jsRound a + jsRound b + jsRound ((n : ℚ) - a - b) := by
    have : ((n - 2 : ℤ) : ℚ) <
        ((jsRound a + jsRound b + jsRound ((n : ℚ) - a - b) : ℤ) : ℚ) := by
      push_cast; linarith
    exact_mod_cast this
  refine ⟨⟨jsRound_nonneg ha0, jsRound_le hat⟩, ⟨jsRound_nonneg hb0, jsRound_le (by linarith)⟩,
    ⟨jsRound_nonneg hc0, jsRound_le hcn⟩, by omega, by omega⟩

/-- Specification of the projected buckets: the total passes through, each
rounded bucket lies in `[0, total]`, and the three rounded buckets sum to
`total` up to a rounding drift of at most one. -/
def BucketSpec (kpis : FleetKPIs) (weights : Weights) : Prop :=
  (dynamicKpis kpis weights).total = kpis.total ∧
  (0 ≤ (dynamicKpis kpis weights).healthy ∧ (dynamicKpis kpis weights).healthy ≤ kpis.total) ∧
  (0 ≤ (dynamicKpis kpis weights).warning ∧ (dynamicKpis kpis weights).warning ≤ kpis.total) ∧
  (0 ≤ (dynamicKpis kpis weights).highRisk ∧ (dynamicKpis kpis weights).highRisk ≤ kpis.total) ∧
  kpis.total - 1 ≤ (dynamicKpis kpis weights).healthy + (dynamicKpis kpis weights).warning
      + (dynamicKpis kpis weights).highRisk ∧
  (dynamicKpis kpis weights).healthy + (dynamicKpis kpis weights).warning
      + (dynamicKpis kpis weights).highRisk ≤ kpis.total + 1

/-- C1 (amended): for every baseline with positive `total` and every
weight vector, the projector preserves `total`, every rounded bucket lies
in `[0, total]`, and the three rounded buckets sum to `total` within a
drift of at most 1; the code does not re-balance after rounding, so exact
balance can fail (see the counterexample). -/
theorem dynamicKpis_bucket_bounds (kpis : FleetKPIs) (weights : Weights)
    (h : 0 < kpis.total) : BucketSpec kpis weights := by
  have hne : ¬ kpis.total = 0 := by omega
  have htQ : (0 : ℚ) < (kpis.total : ℚ) := by exact_mod_cast h
  have hat : clampedHealthy kpis weights ≤ (kpis.total : ℚ) :=
    max_le htQ.le (min_le_left _ _)
  have hbt : clampedHighRisk kpis weights ≤ (kpis.total : ℚ) - clampedHealthy kpis weights :=
    max_le (by linarith) (min_le_left _ _)
  obtain ⟨h1, h2, h3, h4, h5⟩ := jsRound_triple kpis.total (clampedHealthy kpis weights)
    (clampedHighRisk kpis weights)
    ((kpis.total : ℚ) - clampedHealthy kpis weights - clampedHighRisk kpis weights)
    (le_max_left 0 _) hat (le_max_left 0 _) hbt rfl
  rw [BucketSpec, dynamicKpis_eq kpis weights hne]
  dsimp only
  exact ⟨rfl, ⟨h1.1, h1.2⟩, ⟨h3.1, h3.2⟩, ⟨h2.1, h2.2⟩, by omega, by omega⟩

/-- Witness: the bucket specification holds at the spec's example baseline
with the default slider weights. -/
theorem dynamicKpis_bucket_bounds_witness :
    BucketSpec ⟨100, 60, 25, 15⟩ ⟨0.65, 0.75, 0.45⟩ :=
  dynamicKpis_bucket_bounds ⟨100, 60, 25, 15⟩ ⟨0.65, 0.75, 0.45⟩ (by decide)

/-- Counterexample to C1 as stated: at baseline
`{total 100, healthy 60, warning 25, highRisk 15}` with weights
`{throughput 9/14, risk 1/2, cost 3/10}` the clamped values are 60.5,
25 and 14.5, which round to 61, 25 and 15, summing to 101 ≠ 100. -/
theorem dynamicKpis_sum_counterexample :
    (dynamicKpis ⟨100, 60, 25, 15⟩ ⟨9/14, 1/2, 3/10⟩).healthy +
      (dynamicKpis ⟨100, 60, 25, 15⟩ ⟨9/14, 1/2, 3/10⟩).warning +
      (dynamicKpis ⟨100, 60, 25, 15⟩ ⟨9/14, 1/2, 3/10⟩).highRisk ≠
      (dynamicKpis ⟨100, 60, 25, 15⟩ ⟨9/14, 1/2, 3/10⟩).total := by
  norm_num [dynamicKpis, jsRound]

/-- C2: a baseline with `total = 0` is returned unchanged by the Risk
Bucket Projector, with no impact terms applied. -/
theorem dynamicKpis_total_zero (kpis : FleetKPIs) (weights : Weights)
    (h : kpis.total = 0) : dynamicKpis kpis weights = kpis := by
  simp [dynamicKpis, h]

/-- Witness: the zero-total baseline is fixed by the projector at the
default slider weights. -/
theorem dynamicKpis_total_zero_witness :
    (⟨0, 0, 0, 0⟩ : FleetKPIs).total = 0 ∧
      dynamicKpis ⟨0, 0, 0, 0⟩ ⟨0.65, 0.75, 0.45⟩ = ⟨0, 0, 0, 0⟩ :=
  ⟨rfl, dynamicKpis_total_zero ⟨0, 0, 0, 0⟩ ⟨0.65, 0.75, 0.45⟩ rfl⟩

/-- C4 (amended): when `machine_schedules` is present but every machine
schedule is empty (covering zero machines and zero jobs), the aggregator
returns a KPI record whose scheduled, on-time, late, revenue and
utilization figures are all zero and whose `unassigned` is the length of
`unassigned_jobs` (0 if absent); a schedule lacking `machine_schedules`
instead takes the early return and produces no KPI record (see the
counterexample). -/
theorem computeScheduleKpis_empty_schedules (s : Schedule)
    (ms : List (String × MachineSchedule))
    (hms : s.machine_schedules = some ms)
    (hempty : ∀ m ∈ ms, (m : String × MachineSchedule).2.schedule = []) :
    computeScheduleKpis s =
      some { totalScheduled := 0, unassigned := (s.unassigned_jobs.getD []).length,
             onTime := 0, late := 0, totalRevenue := 0, avgUtilization := 0 } := by
  have h1 : (ms.map fun m => m.2.schedule.length).sum = 0 :=
    List.sum_eq_zero fun x hx => by
      obtain ⟨m, hm, rfl⟩ := List.mem_map.1 hx
      simp [hempty m hm]
  have h2 : (ms.map fun m =>
      m.2.schedule.countP fun j => decide (j.end_ ≤ j.deadline_hours)).sum = 0 :=
    List.sum_eq_zero fun x hx => by
      obtain ⟨m, hm, rfl⟩ := List.mem_map.1 hx
      simp [hempty m hm]
  have h3 : (ms.map fun m =>
      m.2.schedule.countP fun j => decide (j.deadline_hours < j.end_)).sum = 0 :=
    List.sum_eq_zero fun x hx => by
      obtain ⟨m, hm, rfl⟩ := List.mem_map.1 hx
      simp [hempty m hm]
  have h4 : (ms.map fun m => ((m.2.schedule.map fun j => j.revenue.getD 0).sum : ℚ)).sum = 0 :=
    List.sum_eq_zero fun x hx => by
      obtain ⟨m, hm, rfl⟩ := List.mem_map.1 hx
      simp [hempty m hm]
  have h5 : (ms.map fun m => ((m.2.schedule.map fun j => j.end_ - j.start).sum : ℚ)).sum = 0 :=
    List.sum_eq_zero fun x hx => by
      obtain ⟨m, hm, rfl⟩ := List.mem_map.1 hx
      simp [hempty m hm]
  have htf : toFixed1 0 = 0 := by norm_num [toFixed1]
  simp [computeScheduleKpis, hms, h1, h2, h3, h4, h5, htf]

/-- Witness: one machine with an empty schedule and one unassigned job
yields zero counts everywhere except `unassigned = 1`. -/
theorem computeScheduleKpis_empty_schedules_witness :
    computeScheduleKpis
        { machine_schedules := some [("M1", ⟨[]⟩)], unassigned_jobs := some ["J3"] } =
      some ⟨0, 1, 0, 0, 0, 0⟩ := by
  have h := computeScheduleKpis_empty_schedules
    { machine_schedules := some [("M1", ⟨[]⟩)], unassigned_jobs := some ["J3"] }
    [("M1", ⟨[]⟩)] rfl (by simp)
  simpa using h

/-- Counterexample to C4 as stated: a schedule lacking the
`machine_schedules` mapping hits the early return, so no KPI record at
all is produced — in particular not an all-zero one. -/
theorem computeScheduleKpis_missing_map_counterexample :
    computeScheduleKpis { machine_schedules := none, unassigned_jobs := some ["J3"] } = none ∧
      computeScheduleKpis { machine_schedules := none, unassigned_jobs := some ["J3"] } ≠
        some ⟨0, 0, 0, 0, 0, 0⟩ :=
  ⟨rfl, by simp [computeScheduleKpis]⟩

/-- C6: on the specification's end-to-end example schedule (machine `M1`
with an on-time job `J1` worth 100 and a late job `J2` worth 50, plus
unassigned `J3`) the aggregator returns exactly
`{totalScheduled 2, unassigned 1, onTime 1, late 1, totalRevenue 150,
avgUtilizationHours 10}`. -/
theorem computeScheduleKpis_example :
    computeScheduleKpis exampleSchedule = some ⟨2, 1, 1, 1, 150, 10⟩ := by
  norm_num [computeScheduleKpis, exampleSchedule, toFixed1]

/-- C10: the baseline fleet KPIs counted from a risk snapshot satisfy
`healthy + warning + highRisk ≤ total`, with equality exactly when every
record's `risk_level` is one of the three bucket strings; a record with
any other `risk_level` is counted in `total` but in no bucket. -/
theorem computeFleetKpis_buckets (data : List MachineRiskRecord) :
    (computeFleetKpis data).healthy + (computeFleetKpis data).warning
        + (computeFleetKpis data).highRisk ≤ (computeFleetKpis data).total ∧
      ((computeFleetKpis data).healthy + (computeFleetKpis data).warning
          + (computeFleetKpis data).highRisk = (computeFleetKpis data).total ↔
        ∀ r ∈ data, r.risk_level = "Healthy" ∨ r.risk_level = "Warning" ∨
          r.risk_level = "High Risk") := by
  have key : ∀ l : List MachineRiskRecord,
      ((l.countP fun m => m.risk_level == "Healthy")
        + (l.countP fun m => m.risk_level == "Warning")
        + (l.countP fun m => m.risk_level == "High Risk") ≤ l.length) ∧
      ((l.countP fun m => m.risk_level == "Healthy")
        + (l.countP fun m => m.risk_level == "Warning")
        + (l.countP fun m => m.risk_level == "High Risk") = l.length ↔
        ∀ r ∈ l, r.risk_level = "Healthy" ∨ r.risk_level = "Warning" ∨
          r.risk_level = "High Risk") := by
    intro l
    induction l with
    | nil => simp
    | cons m t ih =>
      obtain ⟨ihle, ihiff⟩ := ih
      simp only [List.countP_cons, List.length_cons, List.forall_mem_cons]
      rw [← ihiff]
      by_cases hH : m.risk_level = "Healthy"
      · rw [hH]
        simp
        omega
      · by_cases hW : m.risk_level = "Warning"
        · rw [hW]
          simp
          omega
        · by_cases hR : m.risk_level = "High Risk"
          · rw [hR]
            simp
            omega
          · have e1 : (m.risk_level == "Healthy") = false := by
              simp [hH]
            have e2 : (m.risk_level == "Warning") = false := by
              simp [hW]
            have e3 : (m.risk_level == "High Risk") = false := by
              simp [hR]
            simp [e1, e2, e3, hH, hW, hR]
            omega
  obtain ⟨hle, hiff⟩ := key data
  constructor
  · simp only [computeFleetKpis]
    exact_mod_cast hle
  · simp only [computeFleetKpis]
    rw [← hiff]
    constructor
    · intro hq
      exact_mod_cast hq
    · intro hn
      exact_mod_cast hn

lemma countP_add_countP_not (l : List ScheduleJob) (p : ScheduleJob → Bool) :
    l.countP p + l.countP (fun j => !(p j)) = l.length := by
  induction l with
  | nil => rfl
  | cons a t ih =>
    by_cases h : p a
    · simp [List.countP_cons, h]
      omega
    · simp [List.countP_cons, h] at *
      omega

lemma sum_countP_pair (L : List (String × MachineSchedule)) (p : ScheduleJob → Bool) :
    (L.map fun m => m.2.schedule.countP p).sum
      + (L.map fun m => m.2.schedule.countP fun j => !(p j)).sum
      = (L.map fun m => m.2.schedule.length).sum := by
  induction L with
  | nil => rfl
  | cons a t ih =>
    simp only [List.map_cons, List.sum_cons]
    have h := countP_add_countP_not a.2.schedule p
    omega

/-- Specification of the aggregator's totals on a schedule whose
`machine_schedules` is the machine list `ms`: whenever a KPI record is
produced, on-time and late partition the scheduled count, which is the
sum of the per-machine job counts. -/
def TotalsSpec (s : Schedule) (ms : List (String × MachineSchedule)) : Prop :=
  ∀ k ∈ computeScheduleKpis s,
    k.onTime + k.late = k.totalScheduled ∧
    k.totalScheduled = (ms.map fun m => m.2.schedule.length).sum

/-- C3: whenever the aggregator produces a KPI record, its on-time and
late counts partition the scheduled count, and the scheduled count is the
sum over all machines of that machine's job-sequence length. -/
theorem computeScheduleKpis_totals (s : Schedule)
    (ms : List (String × MachineSchedule))
    (hms : s.machine_schedules = some ms) : TotalsSpec s ms := by
  intro k hk
  rw [Option.mem_def] at hk
  simp only [computeScheduleKpis, hms, Option.some.injEq] at hk
  subst hk
  refine ⟨?_, rfl⟩
  have hfun : (fun j : ScheduleJob => decide (¬ j.end_ ≤ j.deadline_hours))
      = fun j : ScheduleJob => !(decide (j.end_ ≤ j.deadline_hours)) := by
    funext j
    exact decide_not
  dsimp only
  rw [hfun]
  exact sum_countP_pair ms fun j => decide (j.end_ ≤ j.deadline_hours)

/-- Witness: the totals invariant evaluated on a concrete two-job,
one-machine schedule. -/
theorem computeScheduleKpis_totals_witness :
    TotalsSpec
      { machine_schedules := some [("M2", ⟨[⟨"JA", 0, 2, 1, none⟩, ⟨"JB", 2, 3, 9, some 7⟩]⟩)]
        unassigned_jobs := none }
      [("M2", ⟨[⟨"JA", 0, 2, 1, none⟩, ⟨"JB", 2, 3, 9, some 7⟩]⟩)] :=
  computeScheduleKpis_totals _ _ rfl

lemma sum_map_flatMap (L : List (String × MachineSchedule)) (f : ScheduleJob → ℚ) :
    ((L.flatMap fun m => m.2.schedule).map f).sum
      = (L.map fun m => (m.2.schedule.map f).sum).sum := by
  induction L with
  | nil => rfl
  | cons a t ih =>
    simp only [List.flatMap_cons, List.map_append, List.sum_append, List.map_cons,
      List.sum_cons, ih]

/-- Specification of the aggregator's utilization figure on a schedule
whose `machine_schedules` is the machine list `ms`: whenever a KPI record
is produced, `avgUtilization` is 0 with no machines, and otherwise is the
busy-hours sum over all jobs divided by the machine count, rounded to one
decimal. -/
def UtilizationSpec (s : Schedule) (ms : List (String × MachineSchedule)) : Prop :=
  ∀ k ∈ computeScheduleKpis s,
    (ms.length = 0 → k.avgUtilization = 0) ∧
    (0 < ms.length → k.avgUtilization =
      toFixed1 (((ms.flatMap fun m => m.2.schedule).map fun j => j.end_ - j.start).sum
        / (ms.length : ℚ)))

/-- C5: whenever the aggregator produces a KPI record, its
`avgUtilization` is the total busy hours (the sum of `end - start` over
all jobs of all machines) divided by the number of machines appearing in
`machine_schedules`, rounded to one decimal place; it is `0` when there
are no machines. -/
theorem computeScheduleKpis_avgUtilization (s : Schedule)
    (ms : List (String × MachineSchedule))
    (hms : s.machine_schedules = some ms) : UtilizationSpec s ms := by
  intro k hk
  rw [Option.mem_def] at hk
  simp only [computeScheduleKpis, hms, Option.some.injEq] at hk
  subst hk
  dsimp only
  constructor
  · intro h0
    rw [if_neg (by omega)]
    norm_num [toFixed1]
  · intro hpos
    rw [if_pos hpos, sum_map_flatMap]

/-- Witness: the utilization formula evaluated on a concrete one-machine
schedule: both the zero-machines implication (vacuously) and the
positive-machines equation hold. -/
theorem computeScheduleKpis_avgUtilization_witness :
    UtilizationSpec
      { machine_schedules := some [("M3", ⟨[⟨"JC", 1, 4, 4, none⟩]⟩)]
        unassigned_jobs := none }
      [("M3", ⟨[⟨"JC", 1, 4, 4, none⟩]⟩)] :=
  computeScheduleKpis_avgUtilization _ _ rfl

lemma flatMap_getElem? {α β : Type} (l : List α) (f : α → List β) :
    ∀ (i : ℕ) (a : α), l[i]? = some a → ∀ (j : ℕ) (b : β), (f a)[j]? = some b →
      (l.flatMap f)[((l.take i).map fun x => (f x).length).sum + j]? = some b := by
  induction l with
  | nil =>
    intro i a ha
    simp at ha
  | cons x xs ih =>
    intro i a ha j b hb
    cases i with
    | zero =>
      simp only [List.getElem?_cons_zero, Option.some.injEq] at ha
      subst ha
      have hj : j < (f x).length := by
        by_contra hcon
        push_neg at hcon
        rw [List.getElem?_eq_none hcon] at hb
        cases hb
      simp only [List.take_zero, List.map_nil, List.sum_nil, Nat.zero_add,
        List.flatMap_cons]
      rw [List.getElem?_append_left hj]
      exact hb
    | succ n =>
      simp only [List.getElem?_cons_succ] at ha
      simp only [List.take_succ_cons, List.map_cons, List.sum_cons, List.flatMap_cons]
      rw [Nat.add_assoc, List.getElem?_append_right (by omega)]
      have hred : (f x).length + (((xs.take n).map fun y => (f y).length).sum + j)
          - (f x).length = ((xs.take n).map fun y => (f y).length).sum + j := by
        omega
      rw [hred]
      exact ih n a ha j b hb

lemma length_flatMap_sum {α β : Type} (l : List α) (f : α → List β) :
    (l.flatMap f).length = (l.map fun a => (f a).length).sum := by
  induction l with
  | nil => rfl
  | cons x xs ih =>
    simp only [List.flatMap_cons, List.length_append, List.map_cons, List.sum_cons, ih]

/-- Specification of the Timeline Builder's output on a schedule whose
`machine_schedules` is the machine list `ms`: the task count is the total
job count; the task at flat position (jobs of earlier machines) + `j` is
exactly machine `i`'s job `j`, rendered with id `machineId ++ "_" ++ j`
and endpoints `now + start·3600000` / `now + end·3600000`; and every task
comes from some job, with `end ≥ start` whenever the job's `end ≥ start`. -/
def GanttSpec (s : Schedule) (now : ℚ) (ms : List (String × MachineSchedule)) : Prop :=
  ((buildGanttTasks s now).length = (ms.map fun m => m.2.schedule.length).sum) ∧
  (∀ (i j : ℕ) (p : String × MachineSchedule) (job : ScheduleJob),
    ms[i]? = some p → p.2.schedule[j]? = some job →
    (buildGanttTasks s now)[((ms.take i).map fun m => m.2.schedule.length).sum + j]? =
      some { id := p.1 ++ "_" ++ toString j
             start := now + job.start * 3600 * 1000
             end_ := now + job.end_ * 3600 * 1000 }) ∧
  (∀ t ∈ buildGanttTasks s now, ∃ p ∈ ms, ∃ job ∈ p.2.schedule,
    t.start = now + job.start * 3600 * 1000 ∧
    t.end_ = now + job.end_ * 3600 * 1000 ∧
    (job.start ≤ job.end_ → t.start ≤ t.end_))

/-- C7: on a schedule with a `machine_schedules` list, the Timeline
Builder emits exactly one task per (machine, job) pair in machine-major
order preserving job order, with hour offsets converted to milliseconds
at 3600×1000, so a task's end is at or after its start whenever the job's
end is at or after its start. -/
theorem buildGanttTasks_spec (s : Schedule) (now : ℚ)
    (ms : List (String × MachineSchedule))
    (hms : s.machine_schedules = some ms) : GanttSpec s now ms := by
  have hbg : buildGanttTasks s now = ms.flatMap fun p =>
      p.2.schedule.enum.map fun q =>
        ({ id := p.1 ++ "_" ++ toString q.1
           start := now + q.2.start * 3600 * 1000
           end_ := now + q.2.end_ * 3600 * 1000 } : TimelineTask) := by
    simp only [buildGanttTasks, hms]
  have hlen : ∀ p : String × MachineSchedule,
      ((p.2.schedule.enum.map fun q =>
        ({ id := p.1 ++ "_" ++ toString q.1
           start := now + q.2.start * 3600 * 1000
           end_ := now + q.2.end_ * 3600 * 1000 } : TimelineTask)).length)
        = p.2.schedule.length := by
    intro p
    simp [List.enum_length]
  refine ⟨?_, ?_, ?_⟩
  · rw [hbg, length_flatMap_sum]
    simp only [hlen]
  · intro i j p job hp hjob
    rw [hbg]
    have hoff : ((ms.take i).map fun m => m.2.schedule.length).sum
        = ((ms.take i).map fun x =>
          ((x.2.schedule.enum.map fun q =>
            ({ id := x.1 ++ "_" ++ toString q.1
               start := now + q.2.start * 3600 * 1000
               end_ := now + q.2.end_ * 3600 * 1000 } : TimelineTask)).length)).sum := by
      simp only [hlen]
    rw [hoff]
    refine flatMap_getElem? ms _ i p hp j _ ?_
    rw [List.getElem?_map, List.getElem?_enum, hjob]
    rfl
  · rw [hbg]
    intro t ht
    obtain ⟨p, hpmem, htin⟩ := List.mem_flatMap.1 ht
    obtain ⟨q, hqmem, hq⟩ := List.mem_map.1 htin
    have hjob : q.2 ∈ p.2.schedule := by
      have h := List.mem_enum_iff_getElem?.1 hqmem
      exact List.getElem?_mem h
    refine ⟨p, hpmem, q.2, hjob, ?_, ?_, ?_⟩
    · rw [← hq]
    · rw [← hq]
    · intro hle
      rw [← hq]
      dsimp only
      have : q.2.start * 3600 * 1000 ≤ q.2.end_ * 3600 * 1000 := by nlinarith
      linarith

/-- Witness: the timeline specification holds on a concrete one-machine,
one-job schedule anchored at time 0. -/
theorem buildGanttTasks_spec_witness :
    GanttSpec { machine_schedules := some [("M1", ⟨[⟨"J1", 0, 4, 5, none⟩]⟩)]
                unassigned_jobs := none } 0 [("M1", ⟨[⟨"J1", 0, 4, 5, none⟩]⟩)] :=
  buildGanttTasks_spec _ 0 _ rfl

/-- Specification of the Deferral Explainer on a schedule whose
`unassigned_jobs` is the id list `jobs`: the catalog has exactly 3
entries, the output matches the input in length and order, the entry at
index `i` pairs the input id with `reasons[i % 3]`, and the reason
repeats with period 3. -/
def DeferralSpec (s : Schedule) (jobs : List String) : Prop :=
  reasons.length = 3 ∧
  (deferredJobsList s).length = jobs.length ∧
  (∀ i : ℕ, (deferredJobsList s)[i]? =
    (jobs[i]?).map fun jobId => { id := jobId, reason := reasons.getD (i % 3) "" }) ∧
  (∀ i : ℕ, i + 3 < jobs.length →
    ((deferredJobsList s)[i]?).map DeferredJobEntry.reason =
      ((deferredJobsList s)[i + 3]?).map DeferredJobEntry.reason)

/-- C8: the Deferral Explainer returns one entry per unassigned job id,
in order, whose reason at index `i` is `reasons[i % 3]` from the fixed
3-entry catalog, so reasons repeat with period 3. -/
theorem deferredJobsList_spec (s : Schedule) (jobs : List String)
    (hjobs : s.unassigned_jobs = some jobs) : DeferralSpec s jobs := by
  have hd : deferredJobsList s = jobs.enum.map fun q =>
      ({ id := q.2, reason := reasons.getD (q.1 % reasons.length) "" } : DeferredJobEntry) := by
    simp only [deferredJobsList, hjobs]
  have hidx : ∀ i : ℕ, (deferredJobsList s)[i]? =
      (jobs[i]?).map fun jobId =>
        ({ id := jobId, reason := reasons.getD (i % 3) "" } : DeferredJobEntry) := by
    intro i
    rw [hd, List.getElem?_map, List.getElem?_enum]
    cases h : jobs[i]? with
    | none => rfl
    | some a => rfl
  refine ⟨rfl, ?_, hidx, ?_⟩
  · rw [hd]
    simp [List.enum_length]
  · intro i hi
    rw [hidx i, hidx (i + 3)]
    have h1 : i < jobs.length := by omega
    have h3 : i + 3 < jobs.length := hi
    rw [List.getElem?_eq_getElem h1, List.getElem?_eq_getElem h3]
    simp [Nat.add_mod_right]

/-- Witness: the deferral specification holds on a schedule with four
unassigned jobs, where index 0 and index 3 share a reason. -/
theorem deferredJobsList_spec_witness :
    DeferralSpec { machine_schedules := none, unassigned_jobs := some ["JA", "JB", "JC", "JD"] }
      ["JA", "JB", "JC", "JD"] :=
  deferredJobsList_spec _ _ rfl

lemma scenarioResultOf_scenario (name : String) (schedule : Schedule)
    (r : ScenarioResult) (h : scenarioResultOf name schedule = some r) :
    r.scenario = name := by
  unfold scenarioResultOf at h
  cases hm : schedule.machine_schedules with
  | none => rw [hm] at h; cases h
  | some ms =>
    rw [hm] at h
    simp only [Option.some.injEq] at h
    subst h
    rfl

/-- C9 (amended): whenever the Scenario Runner reports an output (i.e.
every optimizer call succeeded), it has exactly one result per preset, in
preset order, each carrying its preset's name; on any failure the loop is
aborted and nothing is reported — the partial results accumulated so far
are discarded, not surfaced (see the counterexample). -/
theorem runWhatIfAnalysis_success_shape (opt : Weights → Except String Schedule)
    (scenarios : List (String × Weights)) :
    ∀ results ∈ runWhatIfAnalysis opt scenarios,
      results.length = scenarios.length ∧
      ∀ i : ℕ, (results[i]?).map ScenarioResult.scenario = (scenarios[i]?).map Prod.fst := by
  induction scenarios with
  | nil =>
    intro results h
    rw [Option.mem_def] at h
    simp only [runWhatIfAnalysis, runScenarioLoop, Except.toOption, Option.some.injEq] at h
    subst h
    simp
  | cons sc rest ih =>
    intro results h
    rw [Option.mem_def] at h
    simp only [runWhatIfAnalysis, runScenarioLoop] at h
    cases hopt : opt sc.2 with
    | error e =>
      simp [hopt, Except.toOption] at h
    | ok sched =>
      simp only [hopt] at h
      cases hsro : scenarioResultOf sc.1 sched with
      | none =>
        simp [hsro, Except.toOption] at h
      | some r =>
        simp only [hsro] at h
        cases hloop : runScenarioLoop opt rest with
        | error e =>
          simp [hloop, Except.toOption, Except.map] at h
        | ok rs =>
          simp only [hloop, Except.map, Except.toOption, Option.some.injEq] at h
          subst h
          have hrest := ih rs (by
            rw [Option.mem_def]
            simp [runWhatIfAnalysis, hloop, Except.toOption])
          refine ⟨by simp [hrest.1], ?_⟩
          intro i
          cases i with
          | zero =>
            simp [scenarioResultOf_scenario sc.1 sched r hsro]
          | succ n =>
            simp only [List.getElem?_cons_succ]
            exact hrest.2 n

/-- Witness: with an optimizer that always returns an empty schedule, a
single "Balanced" preset yields exactly one result row named after it. -/
theorem runWhatIfAnalysis_success_shape_witness :
    ([⟨"Balanced", 0, 0⟩] : List ScenarioResult).length
        = ([("Balanced", ⟨0.65, 0.75, 0.45⟩)] : List (String × Weights)).length ∧
      ∀ i : ℕ, ((([⟨"Balanced", 0, 0⟩] : List ScenarioResult))[i]?).map
          ScenarioResult.scenario
        = ((([("Balanced", (⟨0.65, 0.75, 0.45⟩ : Weights))])[i]?).map Prod.fst) :=
  runWhatIfAnalysis_success_shape
    (fun _ => Except.ok { machine_schedules := some [], unassigned_jobs := none })
    [("Balanced", ⟨0.65, 0.75, 0.45⟩)] [⟨"Balanced", 0, 0⟩] rfl

/-- An optimizer oracle that succeeds with an empty schedule on the
throughput-1 preset and fails on everything else. -/
def optFailSecond : Weights → Except String Schedule := fun w =>
  if w.w_throughput = 1 then
    Except.ok { machine_schedules := some [], unassigned_jobs := some [] }
  else Except.error "Network Error"

/-- Counterexample to C9 as stated: with two presets whose first call
succeeds (the one-preset loop returns the one-row partial result) and
whose second call fails, the runner reports nothing at all — the partial
result set is discarded instead of being reported as the output. -/
theorem runWhatIfAnalysis_failure_counterexample :
    runScenarioLoop optFailSecond [("A", ⟨1, 0, 0⟩)] = Except.ok [⟨"A", 0, 0⟩] ∧
      runWhatIfAnalysis optFailSecond [("A", ⟨1, 0, 0⟩), ("B", ⟨0, 0, 0⟩)] = none :=
  ⟨rfl, rfl⟩
